import Mathlib

/-!
Verification of the batch text-to-speech pipeline in `src/app.py`.

The development shallowly embeds the program's core:
* `synthesize_and_upload` (app.py lines 61-133): the batch pipeline that walks the
  input paragraphs, calls the synthesis endpoint, stages the audio bytes to a local
  temp file, uploads to object storage, and accumulates the result dictionary;
* `generate_csv_links` (app.py lines 136-153): the CSV link-list exporter;
* the post-run reporting of the main execution block (app.py lines 162-193).

External effects (HTTP responses, upload outcomes, random uuid hex strings) are
supplied by an oracle `Env`; every side effect performed by the code is recorded
in an event trace so that claims about calls made, files created and files removed
can be stated.  Python dictionaries (insertion ordered) are association lists;
Python strings are `String` with the string operations used by the code
(`rstrip`, `replace`, `startswith`, `int`, `str`) embedded as executable functions
over `String.data`.
-/

/-- Decimal digit character, used to embed Python's `str`/f-string formatting of
an integer.  Only applied to values `< 10`. -/
def digitChar (d : Nat) : Char :=
  match d with
  | 0 => '0' | 1 => '1' | 2 => '2' | 3 => '3' | 4 => '4'
  | 5 => '5' | 6 => '6' | 7 => '7' | 8 => '8' | _ => '9'

/-- Fuel-driven most-significant-first decimal digits of `n` (fuel ≥ n suffices). -/
def natDigitsAux : Nat → Nat → List Char
  | 0, n => [digitChar (n % 10)]
  | fuel+1, n => if n < 10 then [digitChar n] else natDigitsAux fuel (n / 10) ++ [digitChar (n % 10)]

/-- Decimal digits of `n`, most significant first. -/
def natDigits (n : Nat) : List Char := natDigitsAux n n

/-- Embedding of Python's decimal rendering of a nonnegative integer
(`str(n)` / f-string interpolation). -/
def natToString (n : Nat) : String := ⟨natDigits n⟩

/-- Numeric value of a digit character. -/
def digitVal (c : Char) : Nat := c.toNat - 48

/-- Left fold accumulating a decimal value over a digit list. -/
def parseNatCore (a : Nat) (l : List Char) : Nat := l.foldl (fun a c => a * 10 + digitVal c) a

/-- Embedding of Python's `int(s)` on a string of decimal digits. -/
def parseNat (s : String) : Nat := parseNatCore 0 s.data

/-- Embedding of Python's `x.replace("slide", "")`: scan left to right, dropping
each (non-overlapping) occurrence of the character sequence `slide`. -/
def removeSlide : List Char → List Char
  | 's' :: 'l' :: 'i' :: 'd' :: 'e' :: rest => removeSlide rest
  | c :: rest => c :: removeSlide rest
  | [] => []

/-- Embedding of the sort key `int(x.replace("slide", ""))` used in
`generate_csv_links` (app.py line 145). -/
def slideNum (x : String) : Nat := parseNat ⟨removeSlide x.data⟩

/-- `startsWithChars s p` decides whether `p` is an initial segment of `s`. -/
def startsWithChars : List Char → List Char → Bool
  | _, [] => true
  | [], _ :: _ => false
  | c :: cs, p :: ps => (c = p) && startsWithChars cs ps

/-- Embedding of Python's `s.startswith(pat)`. -/
def strStartsWith (s pat : String) : Bool := startsWithChars s.data pat.data

/-- `strEndsWith s pat` decides whether `s` ends with `pat`. -/
def strEndsWith (s pat : String) : Bool := startsWithChars s.data.reverse pat.data.reverse

/-- Embedding of Python's `s.rstrip("/")`: remove all trailing `/` characters. -/
def rstripSlash (s : String) : String := ⟨(s.data.reverse.dropWhile (fun c => c = '/')).reverse⟩

/-- Outcome of the `requests.post` call to the synthesis endpoint for one item
(app.py lines 92-105): success carries the raw response bytes; `httpError` models
`requests.exceptions.HTTPError` raised by `raise_for_status` (non-2xx, with the
status code and the diagnostic detail of the response body); `transportError`
models `requests.exceptions.RequestException` (DNS, reset, timeout). -/
inductive SynthResult where
  | ok (content : List Nat)
  | httpError (status : Nat) (detail : String)
  | transportError (msg : String)
  deriving DecidableEq

/-- Outcome of `s3.upload_file` for one item (app.py line 115): success, or a
raised transport/permission exception carrying its message. -/
inductive UploadOutcome where
  | ok
  | err (msg : String)
  deriving DecidableEq

/-- Oracle for the external world, indexed by the 0-based position of the item
in the input iteration order: the synthesis response, the `uuid.uuid4().hex`
string used to generate the item's filename, and the upload outcome. -/
structure Env where
  synth : Nat → SynthResult
  uuidHex : Nat → String
  upload : Nat → UploadOutcome

/-- Configuration reaching the pipeline: the two UI fields, the secret API key,
and the AWS secrets `S3_PREFIX`, `AWS_BUCKET`, `CDN_BASE` read at startup. -/
structure Cfg where
  voice_id : String
  model_id : String
  api_key : String
  s3Pfx : String
  bucket : String
  cdnBase : String

/-- One observable side effect of a pipeline run.  `pos` fields record the
0-based input position of the item that caused the effect. -/
inductive Event where
  | mkdirTemp
  | stWrite (msg : String)
  | stError (msg : String)
  | httpPost (pos : Nat) (url : String) (text : String) (modelId : String)
  | fileCreate (path : String) (content : List Nat)
  | s3Upload (pos : Nat) (path : String) (bucket : String) (key : String)
  | fileRemove (path : String)
  deriving DecidableEq

/-- The value bound to one `slide<N>` key of the result dict: an insertion-ordered
association list of string keys to string values. -/
abbrev SlideData := List (String × String)

/-- The result dict built by `synthesize_and_upload`: insertion-ordered
association list from `slide<N>` keys to slide data. -/
abbrev Output := List (String × SlideData)

/-- `f"slide{index}"` (app.py line 119). -/
def slideKey (i : Nat) : String := "slide" ++ natToString i

/-- `f"s{index}paragraph1"` (app.py line 120). -/
def paragraphKey (i : Nat) : String := "s" ++ natToString i ++ "paragraph1"

/-- `f"audio_url{index}"` (app.py line 121). -/
def audioKey (i : Nat) : String := "audio_url" ++ natToString i

/-- `f"tts_{uuid.uuid4().hex}.mp3"` (app.py line 107). -/
def makeFilename (hex : String) : String := "tts_" ++ hex ++ ".mp3"

/-- `f"{S3_PREFIX.rstrip('/')}/{filename}"` (app.py line 114). -/
def makeS3Key (pfx filename : String) : String := rstripSlash pfx ++ "/" ++ filename

/-- `f"{CDN_BASE.rstrip('/')}/{s3_key}"` (app.py line 116). -/
def makeCdnUrl (cdnBase s3_key : String) : String := rstripSlash cdnBase ++ "/" ++ s3_key

/-- The per-item loop of `synthesize_and_upload` (app.py lines 72-131), processing
the remaining paragraph texts.  `p` is the 0-based input position of the first
remaining item (indexing the oracle), `idx` the current value of the Python
`index` variable.  Returns the function result — `Except.error` when an uncaught
exception (a failed `s3.upload_file`) propagates out of the function, in which
case the partial result dict is lost — together with the trace of side effects
performed.  Synthesis failures are caught: they report and `continue` without
touching `index`; `index += 1` and `os.remove` happen only after a successful
upload. -/
def runLoop (env : Env) (cfg : Cfg) :
    List String → Nat → Nat → Except String Output × List Event
  | [], _, _ => (Except.ok [], [])
  | text :: rest, p, idx =>
    let evs0 := [Event.stWrite ("🛠️ Processing: slide" ++ natToString idx),
                 Event.httpPost p ("https://api.elevenlabs.io/v1/text-to-speech/" ++ cfg.voice_id)
                   text cfg.model_id]
    match env.synth p with
    | SynthResult.httpError status detail =>
        let evs := evs0 ++
          [Event.stError ("❌ HTTP Error " ++ natToString status ++ " for slide" ++ natToString idx),
           Event.stError ("Error details: " ++ detail)]
        let r := runLoop env cfg rest (p+1) idx
        (r.1, evs ++ r.2)
    | SynthResult.transportError msg =>
        let evs := evs0 ++
          [Event.stError ("❌ Error generating TTS for slide" ++ natToString idx ++ ": " ++ msg)]
        let r := runLoop env cfg rest (p+1) idx
        (r.1, evs ++ r.2)
    | SynthResult.ok content =>
        let filename := makeFilename (env.uuidHex p)
        let local_path := "temp/" ++ filename
        let s3_key := makeS3Key cfg.s3Pfx filename
        let evs1 := evs0 ++ [Event.fileCreate local_path content,
                             Event.s3Upload p local_path cfg.bucket s3_key]
        match env.upload p with
        | UploadOutcome.err msg => (Except.error msg, evs1)
        | UploadOutcome.ok =>
            let cdn_url := makeCdnUrl cfg.cdnBase s3_key
            let entry := (slideKey idx,
              [(paragraphKey idx, text), (audioKey idx, cdn_url),
               ("voice_id", cfg.voice_id), ("model_id", cfg.model_id)])
            let r := runLoop env cfg rest (p+1) (idx+1)
            ((match r.1 with
              | Except.ok out => Except.ok (entry :: out)
              | Except.error e => Except.error e),
             evs1 ++ [Event.fileRemove local_path] ++ r.2)

/-- `synthesize_and_upload(paragraphs, voice_id, model_id, api_key)`
(app.py lines 61-133): makes the `temp` directory, then iterates over
`paragraphs.values()` — only the values of the input mapping — with the slide
index starting at 2. -/
def synthesize_and_upload (paragraphs : List (String × String)) (env : Env) (cfg : Cfg) :
    Except String Output × List Event :=
  let r := runLoop env cfg (paragraphs.map Prod.snd) 0 2
  (r.1, Event.mkdirTemp :: r.2)

/-- The `slide<N>` keys of a run result, empty when the run raised. -/
def resultKeys (r : Except String Output) : List String :=
  match r with
  | Except.ok out => out.map Prod.fst
  | Except.error _ => []

/-- The (0-based position, text) pairs of the items whose synthesis call
succeeds, in input order.  These are exactly the items for which the code
reaches the staging/upload phase. -/
def okItems (env : Env) : List String → Nat → List (Nat × String)
  | [], _ => []
  | t :: rest, p =>
    match env.synth p with
    | SynthResult.ok _ => (p, t) :: okItems env rest (p+1)
    | _ => okItems env rest (p+1)

/-- The result-dict entry built for a successful item: the `slide<idx>` key bound
to the four fields `s<idx>paragraph1` (the original text), `audio_url<idx>`
(the published CDN URL), `voice_id` and `model_id` (app.py lines 118-128). -/
def entryFor (env : Env) (cfg : Cfg) (idx : Nat) (pt : Nat × String) : String × SlideData :=
  (slideKey idx,
   [(paragraphKey idx, pt.2),
    (audioKey idx, makeCdnUrl cfg.cdnBase (makeS3Key cfg.s3Pfx (makeFilename (env.uuidHex pt.1)))),
    ("voice_id", cfg.voice_id), ("model_id", cfg.model_id)])

/-- Assign consecutive slide indices, starting at `idx`, to a list of successful
items, producing their result-dict entries in order. -/
def assignIdx (env : Env) (cfg : Cfg) (idx : Nat) : List (Nat × String) → Output
  | [] => []
  | pt :: rest => entryFor env cfg idx pt :: assignIdx env cfg (idx+1) rest

/-- The list `[start, start+1, ..., start+n-1]`. -/
def consecFrom (start n : Nat) : List Nat :=
  match n with
  | 0 => []
  | m+1 => start :: consecFrom (start+1) m

/-- The inner loop of `generate_csv_links` over one slide's data
(app.py lines 148-151): the value of the first key starting with `audio_url`. -/
def findAudioUrl : SlideData → Option String
  | [] => none
  | (k, v) :: rest => if strStartsWith k "audio_url" then some v else findAudioUrl rest

/-- Python dict indexing `output[slide_key]` on the association list. -/
def lookupA (k : String) : Output → Option SlideData
  | [] => none
  | (k', v) :: rest => if k' = k then some v else lookupA k rest

/-- Stable insertion of `x` into a list, after every element whose key is ≤. -/
def insertByKey (key : String → Nat) (x : String) : List String → List String
  | [] => [x]
  | y :: ys => if key y ≤ key x then y :: insertByKey key x ys else x :: y :: ys

/-- Embedding of Python's stable `sorted(l, key=key)`. -/
def sortByKey (key : String → Nat) : List String → List String
  | [] => []
  | x :: xs => insertByKey key x (sortByKey key xs)

/-- `generate_csv_links(output)` (app.py lines 136-153), with the CSV modelled as
its list of rows: the header row `["Link"]`, then — for each slide key in
ascending order of `int(key.replace("slide", ""))` — one row holding the value of
the first key of that slide's data starting with `audio_url`, if any. -/
def generate_csv_links (output : Output) : List (List String) :=
  [["Link"]] ++ (sortByKey slideNum (output.map Prod.fst)).filterMap (fun sk =>
    match lookupA sk output with
    | some sd => (findAudioUrl sd).map (fun v => [v])
    | none => none)

/-- The user-visible messages of a trace, in order (`st.write` and `st.error`). -/
def stMessages (evs : List Event) : List String :=
  evs.filterMap (fun e =>
    match e with
    | Event.stWrite m => some m
    | Event.stError m => some m
    | _ => none)

/-- The reporting of the main execution block around a pipeline run
(app.py lines 162-193): the `st.success` message for the loaded paragraph count,
the per-item messages emitted during the run, then — mirroring the
`try`/`if output:`/`else` structure — either the top-level exception report, the
empty-output error, or the final success summary with the produced count. -/
def runAndReport (paragraphs : List (String × String)) (env : Env) (cfg : Cfg) : List String :=
  ("✅ Loaded " ++ natToString paragraphs.length ++ " paragraphs") ::
  (let r := synthesize_and_upload paragraphs env cfg
   stMessages r.2 ++
   (match r.1 with
    | Except.error e => ["❌ Error: " ++ e]
    | Except.ok out =>
      if out.isEmpty then ["❌ No audio files were generated. Please check the errors above."]
      else ["✅ Done! Generated " ++ natToString out.length ++ " audio files and uploaded to S3!"]))

/-- An oracle where every synthesis and upload succeeds. -/
def envAllOk : Env :=
  { synth := fun _ => SynthResult.ok [1],
    uuidHex := fun _ => "u",
    upload := fun _ => UploadOutcome.ok }

/-- An oracle where the second item (position 1) fails synthesis with a 400 and
everything else succeeds. -/
def envFailAt1 : Env :=
  { synth := fun p => if p = 1 then SynthResult.httpError 400 "bad request" else SynthResult.ok [1],
    uuidHex := fun _ => "u",
    upload := fun _ => UploadOutcome.ok }

/-- An oracle where synthesis succeeds but every upload raises a permission
error. -/
def envUpFail : Env :=
  { synth := fun _ => SynthResult.ok [1],
    uuidHex := fun _ => "u",
    upload := fun _ => UploadOutcome.err "AccessDenied" }

/-- An oracle where every synthesis call fails with a transport error. -/
def envSynthFail : Env :=
  { synth := fun _ => SynthResult.transportError "boom",
    uuidHex := fun _ => "u",
    upload := fun _ => UploadOutcome.ok }

/-- A fixed configuration for concrete runs. -/
def cfg0 : Cfg :=
  { voice_id := "v", model_id := "m", api_key := "k",
    s3Pfx := "audio", bucket := "bkt", cdnBase := "https://cdn.example" }

theorem parseNatCore_append (a : Nat) (l₁ l₂ : List Char) :
    parseNatCore a (l₁ ++ l₂) = parseNatCore (parseNatCore a l₁) l₂ := by
  simp [parseNatCore, List.foldl_append]

theorem digitVal_digitChar : ∀ d, d < 10 → digitVal (digitChar d) = d := by decide

theorem parseNatCore_natDigitsAux :
    ∀ fuel n, n ≤ fuel → parseNatCore 0 (natDigitsAux fuel n) = n := by
  intro fuel
  induction fuel with
  | zero =>
    intro n hn
    have : n = 0 := by omega
    subst this
    decide
  | succ fuel ih =>
    intro n hn
    rw [natDigitsAux]
    split
    · simp [parseNatCore, digitVal_digitChar n (by omega)]
    · have hdiv : n / 10 ≤ fuel := by
        have := Nat.div_lt_self (show 0 < n by omega) (show 1 < 10 by omega)
        omega
      rw [parseNatCore_append, ih (n / 10) hdiv]
      simp [parseNatCore, digitVal_digitChar (n % 10) (by omega)]
      omega

theorem parseNat_natToString (n : Nat) : parseNat (natToString n) = n :=
  parseNatCore_natDigitsAux n n (Nat.le_refl n)

theorem natToString_injective {m n : Nat} (h : natToString m = natToString n) : m = n := by
  have hm := parseNat_natToString m
  rw [h, parseNat_natToString n] at hm
  exact hm.symm

theorem natDigits_parse (n : Nat) : parseNatCore 0 (natDigits n) = n :=
  parseNatCore_natDigitsAux n n (Nat.le_refl n)

theorem digitChar_ne_s : ∀ d, ¬ digitChar d = 's' := by
  intro d
  unfold digitChar
  split <;> decide

theorem natDigitsAux_mem :
    ∀ fuel n c, c ∈ natDigitsAux fuel n → ∃ d, c = digitChar d := by
  intro fuel
  induction fuel with
  | zero =>
    intro n c hc
    simp [natDigitsAux] at hc
    exact ⟨n % 10, hc⟩
  | succ fuel ih =>
    intro n c hc
    rw [natDigitsAux] at hc
    split at hc
    · simp at hc
      exact ⟨n, hc⟩
    · rw [List.mem_append] at hc
      rcases hc with hc | hc
      · exact ih (n / 10) c hc
      · simp at hc
        exact ⟨n % 10, hc⟩

theorem removeSlide_cons_ne (c : Char) (rest : List Char) (h : ¬ c = 's') :
    removeSlide (c :: rest) = c :: removeSlide rest := by
  rw [removeSlide.eq_def]
  split <;> simp_all

theorem removeSlide_digits :
    ∀ l : List Char, (∀ c ∈ l, ∃ d, c = digitChar d) → removeSlide l = l := by
  intro l
  induction l with
  | nil => intro _; rfl
  | cons c rest ih =>
    intro h
    obtain ⟨d, hd⟩ := h c (List.mem_cons_self c rest)
    have hcs : ¬ c = 's' := by rw [hd]; exact digitChar_ne_s d
    rw [removeSlide_cons_ne c rest hcs, ih (fun x hx => h x (List.mem_cons_of_mem c hx))]

theorem slideKey_data (i : Nat) :
    (slideKey i).data = 's' :: 'l' :: 'i' :: 'd' :: 'e' :: natDigits i := by
  show ("slide" ++ natToString i).data = _
  rw [String.data_append]
  rfl

theorem slideNum_slideKey (i : Nat) : slideNum (slideKey i) = i := by
  unfold slideNum
  rw [slideKey_data]
  show parseNat ⟨removeSlide ('s' :: 'l' :: 'i' :: 'd' :: 'e' :: natDigits i)⟩ = i
  have h1 : removeSlide ('s' :: 'l' :: 'i' :: 'd' :: 'e' :: natDigits i) = removeSlide (natDigits i) := rfl
  rw [h1, removeSlide_digits (natDigits i) (fun c hc => natDigitsAux_mem i i c hc)]
  exact natDigits_parse i

theorem slideKey_injective {i j : Nat} (h : slideKey i = slideKey j) : i = j := by
  have := congrArg slideNum h
  rwa [slideNum_slideKey, slideNum_slideKey] at this

theorem startsWithChars_append (p rest : List Char) :
    startsWithChars (p ++ rest) p = true := by
  induction p with
  | nil =>
    cases rest <;> rfl
  | cons c cs ih =>
    simp [startsWithChars, ih]

theorem startsWithChars_cons_false {c p : Char} (h : ¬ c = p) (cs ps : List Char) :
    startsWithChars (c :: cs) (p :: ps) = false := by
  simp [startsWithChars, h]

theorem dropWhile_head_false (p : Char → Bool) (l : List Char) :
    l.dropWhile p = [] ∨ ∃ c t, l.dropWhile p = c :: t ∧ p c = false := by
  induction l with
  | nil => exact Or.inl rfl
  | cons c rest ih =>
    by_cases hc : p c = true
    · simpa [List.dropWhile, hc] using ih
    · right
      exact ⟨c, rest, by simp [List.dropWhile, hc], by simpa using hc⟩

theorem rstripSlash_no_trailing (s : String) : strEndsWith (rstripSlash s) "/" = false := by
  unfold strEndsWith rstripSlash
  show startsWithChars ((List.dropWhile (fun c => c = '/') s.data.reverse).reverse).reverse
    ("/".data.reverse) = false
  rw [List.reverse_reverse]
  rcases dropWhile_head_false (fun c => c = '/') s.data.reverse with h | ⟨c, t, h, hc⟩
  · rw [h]; rfl
  · rw [h]
    show startsWithChars (c :: t) ['/'] = false
    simp [startsWithChars]
    intro hc'
    simp [hc'] at hc

theorem runLoop_ok_char (env : Env) (cfg : Cfg) :
    ∀ (texts : List String) (p idx : Nat) (out : Output),
      (runLoop env cfg texts p idx).1 = Except.ok out →
      out = assignIdx env cfg idx (okItems env texts p) := by
  intro texts
  induction texts with
  | nil =>
    intro p idx out h
    simp [runLoop] at h
    simp [okItems, assignIdx, ← h]
  | cons t rest ih =>
    intro p idx out h
    cases hs : env.synth p with
    | httpError status detail =>
      simp only [runLoop, hs] at h
      rw [okItems, hs]
      exact ih (p+1) idx out h
    | transportError msg =>
      simp only [runLoop, hs] at h
      rw [okItems, hs]
      exact ih (p+1) idx out h
    | ok content =>
      cases hu : env.upload p with
      | err msg =>
        simp only [runLoop, hs, hu] at h
        exact absurd h (by simp)
      | ok =>
        simp only [runLoop, hs, hu] at h
        cases hr : (runLoop env cfg rest (p+1) (idx+1)).1 with
        | error e => rw [hr] at h; simp at h
        | ok out' =>
          rw [hr] at h
          simp at h
          subst h
          rw [okItems, hs, assignIdx, ih (p+1) (idx+1) out' hr]
          rfl

theorem runLoop_uploads_ok (env : Env) (cfg : Cfg)
    (hup : ∀ q, env.upload q = UploadOutcome.ok) :
    ∀ (texts : List String) (p idx : Nat),
      (runLoop env cfg texts p idx).1 = Except.ok (assignIdx env cfg idx (okItems env texts p)) := by
  intro texts
  induction texts with
  | nil => intro p idx; rfl
  | cons t rest ih =>
    intro p idx
    cases hs : env.synth p with
    | httpError status detail =>
      simp only [runLoop, hs]
      rw [okItems, hs]
      exact ih (p+1) idx
    | transportError msg =>
      simp only [runLoop, hs]
      rw [okItems, hs]
      exact ih (p+1) idx
    | ok content =>
      simp only [runLoop, hs, hup p]
      rw [ih (p+1) (idx+1)]
      rw [okItems, hs, assignIdx]
      rfl

theorem assignIdx_keys (env : Env) (cfg : Cfg) :
    ∀ (l : List (Nat × String)) (idx : Nat),
      (assignIdx env cfg idx l).map Prod.fst = (consecFrom idx l.length).map slideKey := by
  intro l
  induction l with
  | nil => intro idx; rfl
  | cons pt rest ih =>
    intro idx
    simp only [assignIdx, List.map_cons, List.length_cons, consecFrom, ih (idx+1)]
    rfl

theorem mem_consecFrom : ∀ (n start x : Nat), x ∈ consecFrom start n → start ≤ x ∧ x < start + n := by
  intro n
  induction n with
  | zero => intro start x hx; simp [consecFrom] at hx
  | succ m ih =>
    intro start x hx
    rw [consecFrom] at hx
    rcases List.mem_cons.mp hx with h | h
    · omega
    · have := ih (start+1) x h
      omega

theorem consecFrom_pairwise : ∀ (n start : Nat), List.Pairwise (· < ·) (consecFrom start n) := by
  intro n
  induction n with
  | zero => intro start; exact List.Pairwise.nil
  | succ m ih =>
    intro start
    rw [consecFrom]
    exact List.Pairwise.cons (fun x hx => (mem_consecFrom m (start+1) x hx).1) (ih (start+1))

theorem assignIdx_keys_nodup (env : Env) (cfg : Cfg) (l : List (Nat × String)) (idx : Nat) :
    ((assignIdx env cfg idx l).map Prod.fst).Nodup := by
  rw [assignIdx_keys]
  exact List.Pairwise.map slideKey
    (fun a b hab hk => absurd (slideKey_injective hk) (Nat.ne_of_lt hab))
    (consecFrom_pairwise l.length idx)

theorem sortByKey_sorted_id (key : String → Nat) :
    ∀ l : List String, List.Chain' (fun a b => key a < key b) l → sortByKey key l = l := by
  intro l
  induction l with
  | nil => intro _; rfl
  | cons x xs ih =>
    intro h
    rw [sortByKey, ih (List.Chain'.tail h)]
    cases xs with
    | nil => rfl
    | cons y ys =>
      have hxy : key x < key y := List.chain'_cons.mp h |>.1
      rw [insertByKey]
      simp [Nat.not_le.mpr hxy]

theorem assignIdx_keys_chain (env : Env) (cfg : Cfg) (l : List (Nat × String)) (idx : Nat) :
    List.Chain' (fun a b => slideNum a < slideNum b) ((assignIdx env cfg idx l).map Prod.fst) := by
  rw [assignIdx_keys]
  rw [List.chain'_map]
  have hc : List.Chain' (· < ·) (consecFrom idx l.length) :=
    List.Pairwise.chain' (consecFrom_pairwise l.length idx)
  refine List.Chain'.imp ?_ hc
  intro a b hab
  rwa [slideNum_slideKey, slideNum_slideKey]

theorem lookupA_cons_ne (k k' : String) (v : SlideData) (rest : Output) (h : ¬ k' = k) :
    lookupA k ((k', v) :: rest) = lookupA k rest := by
  simp [lookupA, h]

theorem filterMap_lookupA (g : SlideData → Option (List String)) :
    ∀ A : Output, ((A.map Prod.fst).Nodup) →
      (A.map Prod.fst).filterMap (fun k =>
        match lookupA k A with
        | some sd => g sd
        | none => none) = A.filterMap (fun kv => g kv.2) := by
  intro A
  induction A with
  | nil => intro _; rfl
  | cons kv rest ih =>
    intro hnd
    obtain ⟨k, v⟩ := kv
    rw [List.map_cons, List.nodup_cons] at hnd
    rw [List.map_cons, List.filterMap_cons, List.filterMap_cons]
    have hk : lookupA k ((k, v) :: rest) = some v := by simp [lookupA]
    rw [hk]
    have hcong : (rest.map Prod.fst).filterMap (fun k' =>
        match lookupA k' ((k, v) :: rest) with
        | some sd => g sd
        | none => none) = (rest.map Prod.fst).filterMap (fun k' =>
        match lookupA k' rest with
        | some sd => g sd
        | none => none) := by
      apply List.filterMap_congr
      intro a ha
      have hne : ¬ k = a := fun he => hnd.1 (he ▸ ha)
      rw [lookupA_cons_ne a k v rest hne]
    rw [hcong, ih hnd.2]

theorem paragraphKey_data (i : Nat) :
    (paragraphKey i).data = 's' :: (natDigits i ++ "paragraph1".data) := by
  show (("s" ++ natToString i) ++ "paragraph1").data = _
  rw [String.data_append, String.data_append]
  rfl

theorem audioKey_data (i : Nat) :
    (audioKey i).data = "audio_url".data ++ natDigits i := by
  show ("audio_url" ++ natToString i).data = _
  rw [String.data_append]
  rfl

theorem strStartsWith_paragraphKey (i : Nat) :
    strStartsWith (paragraphKey i) "audio_url" = false := by
  unfold strStartsWith
  rw [paragraphKey_data]
  show startsWithChars ('s' :: (natDigits i ++ "paragraph1".data)) ('a' :: "udio_url".data) = false
  exact startsWithChars_cons_false (by decide) _ _

theorem strStartsWith_audioKey (i : Nat) :
    strStartsWith (audioKey i) "audio_url" = true := by
  unfold strStartsWith
  rw [audioKey_data]
  exact startsWithChars_append "audio_url".data (natDigits i)

theorem findAudioUrl_entryFor (env : Env) (cfg : Cfg) (idx : Nat) (pt : Nat × String) :
    findAudioUrl (entryFor env cfg idx pt).2 =
      some (makeCdnUrl cfg.cdnBase (makeS3Key cfg.s3Pfx (makeFilename (env.uuidHex pt.1)))) := by
  unfold entryFor
  rw [findAudioUrl, strStartsWith_paragraphKey]
  rw [if_neg (by simp)]
  rw [findAudioUrl, strStartsWith_audioKey]
  rfl

theorem mem_assignIdx (env : Env) (cfg : Cfg) :
    ∀ (l : List (Nat × String)) (idx : Nat) (e : String × SlideData),
      e ∈ assignIdx env cfg idx l → ∃ i pt, pt ∈ l ∧ e = entryFor env cfg i pt := by
  intro l
  induction l with
  | nil => intro idx e he; simp [assignIdx] at he
  | cons pt rest ih =>
    intro idx e he
    rw [assignIdx] at he
    rcases List.mem_cons.mp he with h | h
    · exact ⟨idx, pt, List.mem_cons_self pt rest, h⟩
    · obtain ⟨i, pt', hpt', he'⟩ := ih (idx+1) e h
      exact ⟨i, pt', List.mem_cons_of_mem pt hpt', he'⟩

theorem generate_csv_links_assignIdx (env : Env) (cfg : Cfg) (l : List (Nat × String)) (idx : Nat) :
    generate_csv_links (assignIdx env cfg idx l) =
      ["Link"] :: (assignIdx env cfg idx l).map (fun kv => [(findAudioUrl kv.2).getD ""]) := by
  unfold generate_csv_links
  rw [sortByKey_sorted_id slideNum _ (assignIdx_keys_chain env cfg l idx)]
  rw [filterMap_lookupA _ _ (assignIdx_keys_nodup env cfg l idx)]
  have h2 : ∀ kv ∈ assignIdx env cfg idx l,
      (findAudioUrl kv.2).map (fun v => [v]) = some [(findAudioUrl kv.2).getD ""] := by
    intro kv hkv
    obtain ⟨i, pt, _, he⟩ := mem_assignIdx env cfg l idx kv hkv
    rw [he, findAudioUrl_entryFor]
    rfl
  rw [List.filterMap_congr h2, ← List.filterMap_eq_map]
  rfl

theorem runLoop_upload_needs_synth (env : Env) (cfg : Cfg) :
    ∀ (texts : List String) (p idx q : Nat) (pa b k : String),
      Event.s3Upload q pa b k ∈ (runLoop env cfg texts p idx).2 →
      ∃ content, env.synth q = SynthResult.ok content := by
  intro texts
  induction texts with
  | nil => intro p idx q pa b k h; simp [runLoop] at h
  | cons t rest ih =>
    intro p idx q pa b k h
    cases hs : env.synth p with
    | httpError status detail =>
      simp only [runLoop, hs] at h
      simp at h
      exact ih (p+1) idx q pa b k h
    | transportError msg =>
      simp only [runLoop, hs] at h
      simp at h
      exact ih (p+1) idx q pa b k h
    | ok content =>
      cases hu : env.upload p with
      | err msg =>
        simp only [runLoop, hs, hu] at h
        simp at h
        obtain ⟨hq, _⟩ := h
        exact ⟨content, hq ▸ hs⟩
      | ok =>
        simp only [runLoop, hs, hu] at h
        simp at h
        rcases h with ⟨hq, _⟩ | h
        · exact ⟨content, hq ▸ hs⟩
        · exact ih (p+1) (idx+1) q pa b k h

theorem runLoop_ok_removes (env : Env) (cfg : Cfg) :
    ∀ (texts : List String) (p idx : Nat) (out : Output) (pa : String) (c : List Nat),
      (runLoop env cfg texts p idx).1 = Except.ok out →
      Event.fileCreate pa c ∈ (runLoop env cfg texts p idx).2 →
      Event.fileRemove pa ∈ (runLoop env cfg texts p idx).2 := by
  intro texts
  induction texts with
  | nil => intro p idx out pa c _ h2; simp [runLoop] at h2
  | cons t rest ih =>
    intro p idx out pa c h1 h2
    cases hs : env.synth p with
    | httpError status detail =>
      simp only [runLoop, hs] at h1 h2 ⊢
      simp at h2
      simp
      exact ih (p+1) idx out pa c h1 h2
    | transportError msg =>
      simp only [runLoop, hs] at h1 h2 ⊢
      simp at h2
      simp
      exact ih (p+1) idx out pa c h1 h2
    | ok content =>
      cases hu : env.upload p with
      | err msg =>
        simp only [runLoop, hs, hu] at h1
        exact absurd h1 (by simp)
      | ok =>
        simp only [runLoop, hs, hu] at h1 h2 ⊢
        cases hr : (runLoop env cfg rest (p+1) (idx+1)).1 with
        | error e => rw [hr] at h1; simp at h1
        | ok out' =>
          rw [hr] at h1
          simp at h1
          simp at h2
          simp
          rcases h2 with ⟨hpa, _⟩ | h2
          · exact Or.inl hpa
          · exact Or.inr (ih (p+1) (idx+1) out' pa c hr h2)

theorem strEq_of_data {a b : String} (h : a.data = b.data) : a = b := by
  cases a
  cases b
  exact congrArg String.mk h

theorem ne_of_head {a b : String} {c c' : Char} {t t' : List Char}
    (ha : a.data = c :: t) (hb : b.data = c' :: t') (h : ¬ c = c') : a ≠ b := by
  intro e
  have hcc : c :: t = c' :: t' := by rw [← ha, ← hb, e]
  exact h (((List.cons.injEq c t c' t').mp hcc).1)

theorem audioKey_data_cons (i : Nat) :
    (audioKey i).data = 'a' :: ("udio_url".data ++ natDigits i) := by
  rw [audioKey_data]
  rfl

theorem entryFor_fields_nodup (env : Env) (cfg : Cfg) (idx : Nat) (pt : Nat × String) :
    (((entryFor env cfg idx pt).2).map Prod.fst).Nodup := by
  show ([paragraphKey idx, audioKey idx, "voice_id", "model_id"] : List String).Nodup
  have h1 : paragraphKey idx ≠ audioKey idx :=
    ne_of_head (paragraphKey_data idx) (audioKey_data_cons idx) (by decide)
  have h2 : paragraphKey idx ≠ "voice_id" :=
    ne_of_head (paragraphKey_data idx) (show "voice_id".data = 'v' :: "oice_id".data from rfl) (by decide)
  have h3 : paragraphKey idx ≠ "model_id" :=
    ne_of_head (paragraphKey_data idx) (show "model_id".data = 'm' :: "odel_id".data from rfl) (by decide)
  have h4 : audioKey idx ≠ "voice_id" :=
    ne_of_head (audioKey_data_cons idx) (show "voice_id".data = 'v' :: "oice_id".data from rfl) (by decide)
  have h5 : audioKey idx ≠ "model_id" :=
    ne_of_head (audioKey_data_cons idx) (show "model_id".data = 'm' :: "odel_id".data from rfl) (by decide)
  simp [List.nodup_cons, h1, h2, h3, h4, h5]

theorem loaded_msg_inj {m n : Nat}
    (h : "✅ Loaded " ++ natToString m ++ " paragraphs" =
         "✅ Loaded " ++ natToString n ++ " paragraphs") : m = n := by
  have hd := congrArg String.data h
  rw [String.data_append, String.data_append, String.data_append, String.data_append,
      List.append_assoc, List.append_assoc] at hd
  have h1 := List.append_cancel_left hd
  have h2 := List.append_cancel_right h1
  exact natToString_injective (strEq_of_data h2)

theorem makeFilename_data (hex : String) :
    (makeFilename hex).data = 't' :: (("ts_".data ++ hex.data) ++ ".mp3".data) := by
  show (("tts_" ++ hex) ++ ".mp3").data = _
  rw [String.data_append, String.data_append]
  rfl

theorem strStartsWith_makeFilename_slash (hex : String) :
    strStartsWith (makeFilename hex) "/" = false := by
  unfold strStartsWith
  rw [makeFilename_data]
  exact startsWithChars_cons_false (by decide) _ _

theorem makeS3Key_no_leading_slash (pfx filename : String)
    (h1 : rstripSlash pfx ≠ "") (h2 : strStartsWith (rstripSlash pfx) "/" = false) :
    strStartsWith (makeS3Key pfx filename) "/" = false := by
  unfold strStartsWith makeS3Key
  cases hd : (rstripSlash pfx).data with
  | nil =>
    exact absurd (strEq_of_data (show (rstripSlash pfx).data = "".data from hd)) h1
  | cons c t =>
    unfold strStartsWith at h2
    rw [hd] at h2
    have hc : ¬ c = '/' := by simpa [startsWithChars] using h2
    rw [String.data_append, String.data_append, hd]
    show startsWithChars (c :: ((t ++ "/".data) ++ filename.data)) ('/' :: []) = false
    exact startsWithChars_cons_false hc _ _

/-- C1 counterexample: with three input items where the second one fails
synthesis (and all uploads succeed), the produced manifest is keyed
`slide2, slide3`: the third — successful — input item is keyed `slide3`, not
`slide4`, and no gap is left for the failed item.  This refutes the claim that
exactly one slide index is consumed per input item regardless of success, which
would key the third item `slide4` and leave a gap at `slide3`. -/
theorem c1_counterexample :
    resultKeys (runLoop envFailAt1 cfg0 ["a", "b", "c"] 0 2).1 = ["slide2", "slide3"] ∧
    "slide4" ∉ resultKeys (runLoop envFailAt1 cfg0 ["a", "b", "c"] 0 2).1 := by
  decide

/-- C1 (amended): the slide counter starts at 2 but is advanced only when an
item fully succeeds — whenever a run completes without an uncaught upload
exception, the manifest keys are `slide2, slide3, ...`: consecutive indices
assigned to the successful items in input order; failed items consume no index
and leave no gap. -/
theorem c1_index_only_on_success (env : Env) (cfg : Cfg) (texts : List String) (out : Output)
    (h : (runLoop env cfg texts 0 2).1 = Except.ok out) :
    out.map Prod.fst = (consecFrom 2 (okItems env texts 0).length).map slideKey := by
  rw [runLoop_ok_char env cfg texts 0 2 out h, assignIdx_keys]

theorem c1_witness :
    ((runLoop envFailAt1 cfg0 ["a", "b", "c"] 0 2).1 =
      Except.ok (assignIdx envFailAt1 cfg0 2 (okItems envFailAt1 ["a", "b", "c"] 0))) ∧
    (assignIdx envFailAt1 cfg0 2 (okItems envFailAt1 ["a", "b", "c"] 0)).map Prod.fst =
      (consecFrom 2 (okItems envFailAt1 ["a", "b", "c"] 0).length).map slideKey :=
  ⟨rfl, c1_index_only_on_success envFailAt1 cfg0 ["a", "b", "c"] _ rfl⟩

/-- C2 counterexample: a storage (upload) failure for the first item propagates
out of the batch pipeline as an exception (`Except.error`) and the second item
is never processed — no synthesis POST for position 1 appears in the trace.
This refutes the claim that a storage failure only skips that one item while
processing continues. -/
theorem c2_counterexample :
    (runLoop envUpFail cfg0 ["a", "b"] 0 2).1 = Except.error "AccessDenied" ∧
    Event.httpPost 1 "https://api.elevenlabs.io/v1/text-to-speech/v" "b" "m" ∉
      (runLoop envUpFail cfg0 ["a", "b"] 0 2).2 :=
  ⟨rfl, by decide⟩

/-- C2 (amended): synthesis failures never propagate out of the batch pipeline
as exceptions — if no storage upload fails, the run returns normally with the
manifest of exactly the successful items, each synthesis failure only skipping
its own item; a storage failure, by contrast, escapes the pipeline as an
exception and aborts the batch (see the counterexample). -/
theorem c2_synth_failures_contained (env : Env) (cfg : Cfg) (texts : List String)
    (hup : ∀ q, env.upload q = UploadOutcome.ok) :
    (runLoop env cfg texts 0 2).1 = Except.ok (assignIdx env cfg 2 (okItems env texts 0)) :=
  runLoop_uploads_ok env cfg hup texts 0 2

theorem c2_witness :
    (∀ q, envSynthFail.upload q = UploadOutcome.ok) ∧
    (runLoop envSynthFail cfg0 ["a", "b"] 0 2).1 =
      Except.ok (assignIdx envSynthFail cfg0 2 (okItems envSynthFail ["a", "b"] 0)) :=
  ⟨fun _ => rfl, c2_synth_failures_contained envSynthFail cfg0 ["a", "b"] (fun _ => rfl)⟩

/-- C3 counterexample: when the upload of the staged file fails, the staged
temp file is created but never removed — `os.remove` sits after the upload with
no `try`/`finally`, so the failure exit path leaks the file.  This refutes the
claim that the staged file is deleted on every exit path. -/
theorem c3_counterexample :
    Event.fileCreate "temp/tts_u.mp3" [1] ∈ (runLoop envUpFail cfg0 ["a"] 0 2).2 ∧
    Event.fileRemove "temp/tts_u.mp3" ∉ (runLoop envUpFail cfg0 ["a"] 0 2).2 := by
  decide

/-- C3 (amended): on runs that complete without an uncaught upload exception,
every staged temp file is removed — the staged file is deleted when the upload
succeeds, but on an upload failure the exception escapes before cleanup and the
file is leaked (see the counterexample). -/
theorem c3_cleanup_on_success (env : Env) (cfg : Cfg) (texts : List String) (out : Output)
    (pa : String) (c : List Nat)
    (h1 : (runLoop env cfg texts 0 2).1 = Except.ok out)
    (h2 : Event.fileCreate pa c ∈ (runLoop env cfg texts 0 2).2) :
    Event.fileRemove pa ∈ (runLoop env cfg texts 0 2).2 :=
  runLoop_ok_removes env cfg texts 0 2 out pa c h1 h2

theorem c3_witness :
    ((runLoop envAllOk cfg0 ["a"] 0 2).1 =
      Except.ok (assignIdx envAllOk cfg0 2 (okItems envAllOk ["a"] 0)) ∧
     Event.fileCreate "temp/tts_u.mp3" [1] ∈ (runLoop envAllOk cfg0 ["a"] 0 2).2) ∧
    Event.fileRemove "temp/tts_u.mp3" ∈ (runLoop envAllOk cfg0 ["a"] 0 2).2 :=
  ⟨⟨rfl, by decide⟩,
   c3_cleanup_on_success envAllOk cfg0 ["a"] (assignIdx envAllOk cfg0 2 (okItems envAllOk ["a"] 0))
     "temp/tts_u.mp3" [1] rfl (by decide)⟩

/-- C4: the outcome "N > 0 items were submitted and zero succeeded" is
distinguishable by the user from the outcome "nothing was submitted": for any
non-empty input the full report sequence (loaded-count message, per-item
diagnostics, final summary) differs from the report of an empty-input run,
whatever the environments, because the loaded-count messages already differ. -/
theorem c4_zero_success_vs_empty (ps : List (String × String)) (env env' : Env)
    (cfg cfg' : Cfg) (h : ps ≠ []) :
    runAndReport ps env cfg ≠ runAndReport [] env' cfg' := by
  intro he
  simp only [runAndReport, List.cons.injEq] at he
  exact h (List.length_eq_zero.mp (loaded_msg_inj he.1))

theorem c4_witness :
    (([("p1", "hello")] : List (String × String)) ≠ []) ∧
    runAndReport [("p1", "hello")] envSynthFail cfg0 ≠ runAndReport [] envAllOk cfg0 :=
  ⟨by decide,
   c4_zero_success_vs_empty [("p1", "hello")] envSynthFail envAllOk cfg0 cfg0 (by decide)⟩

/-- C5: the storage publisher is invoked only for items whose synthesis call
succeeded: any upload event in any run's trace belongs to a position whose
synthesis outcome was successful audio bytes — so if synthesis fails for an
item (non-2xx or transport error), no upload ever occurs for that item. -/
theorem c5_no_upload_without_synth (env : Env) (cfg : Cfg) (texts : List String)
    (p idx q : Nat) (pa b k : String)
    (h : Event.s3Upload q pa b k ∈ (runLoop env cfg texts p idx).2) :
    ∃ content, env.synth q = SynthResult.ok content :=
  runLoop_upload_needs_synth env cfg texts p idx q pa b k h

theorem c5_witness :
    (Event.s3Upload 0 "temp/tts_u.mp3" "bkt" "audio/tts_u.mp3" ∈
      (runLoop envAllOk cfg0 ["a"] 0 2).2) ∧
    ∃ content, envAllOk.synth 0 = SynthResult.ok content :=
  ⟨by decide,
   c5_no_upload_without_synth envAllOk cfg0 ["a"] 0 2 0 "temp/tts_u.mp3" "bkt"
     "audio/tts_u.mp3" (by decide)⟩

/-- C6: for every manifest produced by a completed run, the exported link list
is a single `Link` header row followed by exactly one URL row per manifest
entry (its length is the entry count plus the header row), the URL rows follow
the manifest's entry order, and that order is strictly ascending in the numeric
slide index `int(key.replace("slide", ""))` — numeric, not lexicographic. -/
theorem c6_csv_links (env : Env) (cfg : Cfg) (texts : List String) (out : Output)
    (h : (runLoop env cfg texts 0 2).1 = Except.ok out) :
    generate_csv_links out = ["Link"] :: out.map (fun kv => [(findAudioUrl kv.2).getD ""]) ∧
    (generate_csv_links out).length = out.length + 1 ∧
    List.Chain' (fun a b => slideNum a < slideNum b) (out.map Prod.fst) := by
  have hout := runLoop_ok_char env cfg texts 0 2 out h
  subst hout
  refine ⟨generate_csv_links_assignIdx env cfg _ 2, ?_, assignIdx_keys_chain env cfg _ 2⟩
  rw [generate_csv_links_assignIdx env cfg _ 2]
  simp

theorem c6_witness :
    ((runLoop envAllOk cfg0 ["a", "b", "c", "d", "e", "f", "g", "h", "i"] 0 2).1 =
      Except.ok (assignIdx envAllOk cfg0 2
        (okItems envAllOk ["a", "b", "c", "d", "e", "f", "g", "h", "i"] 0))) ∧
    (generate_csv_links (assignIdx envAllOk cfg0 2
        (okItems envAllOk ["a", "b", "c", "d", "e", "f", "g", "h", "i"] 0)) =
      ["Link"] :: (assignIdx envAllOk cfg0 2
        (okItems envAllOk ["a", "b", "c", "d", "e", "f", "g", "h", "i"] 0)).map
          (fun kv => [(findAudioUrl kv.2).getD ""]) ∧
     (generate_csv_links (assignIdx envAllOk cfg0 2
        (okItems envAllOk ["a", "b", "c", "d", "e", "f", "g", "h", "i"] 0))).length =
      (assignIdx envAllOk cfg0 2
        (okItems envAllOk ["a", "b", "c", "d", "e", "f", "g", "h", "i"] 0)).length + 1 ∧
     List.Chain' (fun a b => slideNum a < slideNum b)
      ((assignIdx envAllOk cfg0 2
        (okItems envAllOk ["a", "b", "c", "d", "e", "f", "g", "h", "i"] 0)).map Prod.fst)) :=
  ⟨rfl, c6_csv_links envAllOk cfg0 ["a", "b", "c", "d", "e", "f", "g", "h", "i"] _ rfl⟩

/-- C7: for every manifest produced by a completed run, the rendered document
(the result dict serialised as JSON at app.py line 206) has exactly one
top-level key per successful entry — the `slide<i>` keys are pairwise distinct,
so serialising and re-parsing the object is lossless — and every entry is
exactly `entryFor` for some index and successful item: the key `slide<i>` bound
to precisely the four fields `s<i>paragraph1` (the item's original paragraph
text), `audio_url<i>` (the published CDN URL), `voice_id` and `model_id`, with
the four inner keys also pairwise distinct. -/
theorem c7_document_roundtrip (env : Env) (cfg : Cfg) (texts : List String) (out : Output)
    (h : (runLoop env cfg texts 0 2).1 = Except.ok out) :
    out = assignIdx env cfg 2 (okItems env texts 0) ∧
    (out.map Prod.fst).Nodup ∧
    ∀ kv ∈ out, (∃ i pt, pt ∈ okItems env texts 0 ∧ kv = entryFor env cfg i pt) ∧
      ((kv.2).map Prod.fst).Nodup := by
  have hout := runLoop_ok_char env cfg texts 0 2 out h
  subst hout
  refine ⟨rfl, assignIdx_keys_nodup env cfg _ 2, ?_⟩
  intro kv hkv
  obtain ⟨i, pt, hpt, he⟩ := mem_assignIdx env cfg _ 2 kv hkv
  refine ⟨⟨i, pt, hpt, he⟩, ?_⟩
  rw [he]
  exact entryFor_fields_nodup env cfg i pt

theorem c7_witness :
    ((runLoop envAllOk cfg0 ["hello", "world"] 0 2).1 =
      Except.ok (assignIdx envAllOk cfg0 2 (okItems envAllOk ["hello", "world"] 0))) ∧
    (assignIdx envAllOk cfg0 2 (okItems envAllOk ["hello", "world"] 0) =
      assignIdx envAllOk cfg0 2 (okItems envAllOk ["hello", "world"] 0) ∧
     ((assignIdx envAllOk cfg0 2 (okItems envAllOk ["hello", "world"] 0)).map Prod.fst).Nodup ∧
     ∀ kv ∈ assignIdx envAllOk cfg0 2 (okItems envAllOk ["hello", "world"] 0),
       (∃ i pt, pt ∈ okItems envAllOk ["hello", "world"] 0 ∧ kv = entryFor envAllOk cfg0 i pt) ∧
       ((kv.2).map Prod.fst).Nodup) :=
  ⟨rfl, c7_document_roundtrip envAllOk cfg0 ["hello", "world"] _ rfl⟩

/-- C8 counterexample: with the prefix `""` (equally: any prefix that strips to
empty or begins with a separator) the remote key begins with `/`, so the public
URL — the stripped CDN base, then `/`, then the key — contains a doubled
separator exactly at its join point.  This refutes the claim as stated for
every prefix string. -/
theorem c8_counterexample :
    strStartsWith (makeS3Key "" (makeFilename "u")) "/" = true ∧
    makeCdnUrl "https://cdn" (makeS3Key "" (makeFilename "u")) =
      "https://cdn" ++ "//" ++ "tts_u.mp3" := by
  decide

/-- C8 (amended): the key and URL are formed exactly as the claim states
(stripped prefix, `/`, filename; stripped CDN base, `/`, key).  Provided the
prefix still has content after stripping trailing separators and does not begin
with a separator, no doubled separator appears at either join point: the
stripped prefix does not end with `/`, the generated filename does not begin
with `/`, the stripped CDN base does not end with `/`, and the remote key does
not begin with `/`. -/
theorem c8_no_double_separator (pfx hex cdnBase : String)
    (h1 : rstripSlash pfx ≠ "") (h2 : strStartsWith (rstripSlash pfx) "/" = false) :
    strEndsWith (rstripSlash pfx) "/" = false ∧
    strStartsWith (makeFilename hex) "/" = false ∧
    strEndsWith (rstripSlash cdnBase) "/" = false ∧
    strStartsWith (makeS3Key pfx (makeFilename hex)) "/" = false :=
  ⟨rstripSlash_no_trailing pfx, strStartsWith_makeFilename_slash hex,
   rstripSlash_no_trailing cdnBase, makeS3Key_no_leading_slash pfx (makeFilename hex) h1 h2⟩

theorem c8_witness :
    (rstripSlash "audio" ≠ "" ∧ strStartsWith (rstripSlash "audio") "/" = false) ∧
    (strEndsWith (rstripSlash "audio") "/" = false ∧
     strStartsWith (makeFilename "u") "/" = false ∧
     strEndsWith (rstripSlash "https://cdn.example") "/" = false ∧
     strStartsWith (makeS3Key "audio" (makeFilename "u")) "/" = false) :=
  ⟨⟨by decide, by decide⟩,
   c8_no_double_separator "audio" "u" "https://cdn.example" (by decide) (by decide)⟩

/-- C9: running the batch pipeline on an empty batch returns an empty result
dict without raising, and its trace holds only the `temp`-directory creation —
in particular no synthesis POST and no upload call is performed. -/
theorem c9_empty_batch (env : Env) (cfg : Cfg) :
    synthesize_and_upload [] env cfg = (Except.ok [], [Event.mkdirTemp]) := rfl

/-- C10: the pipeline's behaviour depends only on the ordered sequence of
paragraph text values, never on the mapping's keys: two input mappings with the
same value sequence produce identical results and identical side-effect traces
(so the keys can appear in no manifest entry, synthesis request or storage
key). -/
theorem c10_keys_irrelevant (ps qs : List (String × String)) (env : Env) (cfg : Cfg)
    (h : ps.map Prod.snd = qs.map Prod.snd) :
    synthesize_and_upload ps env cfg = synthesize_and_upload qs env cfg := by
  unfold synthesize_and_upload
  rw [h]

theorem c10_witness :
    (([("p1", "hello")] : List (String × String)).map Prod.snd =
      ([("key2", "hello")] : List (String × String)).map Prod.snd) ∧
    synthesize_and_upload [("p1", "hello")] envAllOk cfg0 =
      synthesize_and_upload [("key2", "hello")] envAllOk cfg0 :=
  ⟨rfl, c10_keys_irrelevant [("p1", "hello")] [("key2", "hello")] envAllOk cfg0 rfl⟩
